import Mathlib

/-!
Verification of the custody/holiday schedule engine (`src/schedule.ts`).

Dates are modelled at calendar-day granularity as integers counting days
since 1970-01-01 (the JS `Date` values in the engine are only ever used
through `startOfDay`, `addDays`, `diffDays`, `getDay`, `getFullYear`,
`getDate` and the `new Date(year, month, day)` constructor, so a day
number is a faithful model).  `/` and `%` on `Int` are Euclidean, which
for the positive divisors used here coincides with floor division and a
non-negative remainder, matching `Math.floor` and the always-non-negative
operands the source feeds to the JS `%` operator.
-/

set_option maxHeartbeats 1000000

deriving instance DecidableEq for Except

/-- Party roles, `"user" | "coparent"` in the source. -/
inductive Party where
  | user : Party
  | coparent : Party
deriving DecidableEq, Repr

/-- Gregorian leap-year test (models the year rule used by JS `Date`). -/
def isLeap (y : Int) : Bool :=
  y % 4 == 0 && (y % 100 != 0 || y % 400 == 0)

/-- Cumulative day count before 1-based month `M` in a non-leap year
(entry 13 is a full year, for the `new Date(year, month + 1, 0)` idiom). -/
def cumDays : Nat → Nat
  | 1 => 0
  | 2 => 31
  | 3 => 59
  | 4 => 90
  | 5 => 120
  | 6 => 151
  | 7 => 181
  | 8 => 212
  | 9 => 243
  | 10 => 273
  | 11 => 304
  | 12 => 334
  | 13 => 365
  | _ => 0

/-- Number of days in 0-based (JS-style) month `m` of year `y`. -/
def daysInMonth (y : Int) (m : Nat) : Nat :=
  match m with
  | 0 => 31
  | 1 => if isLeap y then 29 else 28
  | 2 => 31
  | 3 => 30
  | 4 => 31
  | 5 => 30
  | 6 => 31
  | 7 => 31
  | 8 => 30
  | 9 => 31
  | 10 => 30
  | _ => 31

/-- Epoch-day number of year `y`, 1-based month `M`, day `d` in the
proleptic Gregorian calendar, with day 0 = 1970-01-01.  This models the
local-date JS constructor `new Date(y, M - 1, d)`; it is affine in `d`,
exactly as JS day-of-month overflow/underflow normalisation behaves. -/
def daysFromCivil (y : Int) (M : Nat) (d : Int) : Int :=
  365 * y + (y - 1) / 4 - (y - 1) / 100 + (y - 1) / 400 + 1
    + cumDays M + (if 2 < M ∧ isLeap y = true then 1 else 0) + d - 1 - 719528

/-- Model of the JS constructor `new Date(year, month, day)` with a
0-based month, as used throughout the engine. -/
def mkDate (year : Int) (month : Nat) (day : Int) : Int :=
  daysFromCivil year (month + 1) day

/-- Model of `Date.prototype.getDay`: 0 = Sunday .. 6 = Saturday
(day 0 of the epoch, 1970-01-01, was a Thursday). -/
def weekdayOf (z : Int) : Nat :=
  ((z + 4) % 7).toNat

/-- Inverse conversion from an epoch day to `(year, 1-based month, day)`;
models `getFullYear` / `getMonth` / `getDate`.  Algorithm after the
standard civil-from-days computation over 400-year eras. -/
def civilFromDays (z : Int) : Int × Nat × Nat :=
  let z' := z + 719468
  let era : Int := z' / 146097
  let doe : Nat := (z' - era * 146097).toNat
  let yoe : Nat := (doe - doe / 1460 + doe / 36524 - doe / 146096) / 365
  let y : Int := (yoe : Int) + era * 400
  let doy : Nat := doe - (365 * yoe + yoe / 4 - yoe / 100)
  let mp : Nat := (5 * doy + 2) / 153
  let d : Nat := doy - (153 * mp + 2) / 5 + 1
  let m : Nat := if mp < 10 then mp + 3 else mp - 9
  (if m ≤ 2 then y + 1 else y, m, d)

/-- Model of `Date.prototype.getFullYear`. -/
def yearOf (z : Int) : Int :=
  (civilFromDays z).1

/-- Lower-case day names, index = JS weekday number (source `DAYS`). -/
def DAYS : List String :=
  ["sunday", "monday", "tuesday", "wednesday", "thursday", "friday", "saturday"]

/-- Short day names produced by `toLocaleDateString("en-US", \x7bweekday: "short"\x7d)`. -/
def DAYS_SHORT : List String :=
  ["Sun", "Mon", "Tue", "Wed", "Thu", "Fri", "Sat"]

/-- Short month names produced by `toLocaleDateString("en-US", \x7bmonth: "short"\x7d)`. -/
def MONTHS_SHORT : List String :=
  ["Jan", "Feb", "Mar", "Apr", "May", "Jun", "Jul", "Aug", "Sep", "Oct", "Nov", "Dec"]

/-- ASCII lower-casing of one character (model of the character-level
effect of JS `toLowerCase` on the day-name alphabet). -/
def lowerChar (c : Char) : Char :=
  if 65 ≤ c.toNat ∧ c.toNat ≤ 90 then Char.ofNat (c.toNat + 32) else c

/-- Model of `String.prototype.toLowerCase` on configuration day names. -/
def lowerString (s : String) : String :=
  String.mk (s.data.map lowerChar)

/-- Source `dayIndex`: look a lower-cased day name up in `DAYS`; throws
`Invalid day name` when the name is not recognised. -/
def dayIndex (name : String) : Except String Nat :=
  match DAYS.findIdx? (fun d => d == lowerString name) with
  | some i => Except.ok i
  | none => Except.error ("Invalid day name: " ++ name)

/-- Source `formatDate`: `"Fri, Jan 5"`-style rendering. -/
def formatDate (z : Int) : String :=
  let c := civilFromDays z
  DAYS_SHORT.getD (weekdayOf z) "" ++ ", " ++ MONTHS_SHORT.getD (c.2.1 - 1) "" ++ " "
    ++ toString c.2.2

/-- Source `nthWeekday`: the `n`-th occurrence of JS weekday `weekday`
in 0-based `month` of `year`, computed from the actual weekday of the
1st of the month. -/
def nthWeekday (year : Int) (month : Nat) (weekday n : Nat) : Int :=
  let dayOfWeek := weekdayOf (mkDate year month 1)
  let date : Nat := 1 + (weekday + 7 - dayOfWeek) % 7 + (n - 1) * 7
  mkDate year month (date : Int)

/-- Source `lastWeekday`: the last occurrence of JS weekday `weekday` in
0-based `month` of `year`, stepping back from the last day of the month
(`new Date(year, month + 1, 0)`, whose day-of-month is `daysInMonth`). -/
def lastWeekday (year : Int) (month : Nat) (weekday : Nat) : Int :=
  let lastDate : Nat := daysInMonth year month
  let last := mkDate year month (lastDate : Int)
  let diff : Nat := (weekdayOf last + 7 - weekday) % 7
  mkDate year month ((lastDate : Int) - diff)

/-- Source `getUtahHolidayDates`: name-to-date mapping for a year, as an
association list in the object-literal insertion order (JS string-keyed
objects enumerate in insertion order). -/
def getUtahHolidayDates (year : Int) : List (String × Int) :=
  [ ("New Year\x27s Day", mkDate year 0 1),
    ("MLK Day", nthWeekday year 0 1 3),
    ("Presidents Day", nthWeekday year 1 1 3),
    ("Spring Break", nthWeekday year 2 1 3),
    ("Memorial Day", lastWeekday year 4 1),
    ("Father\x27s Day", nthWeekday year 5 0 3),
    ("Mother\x27s Day", nthWeekday year 4 0 2),
    ("July 4th", mkDate year 6 4),
    ("Pioneer Day", mkDate year 6 24),
    ("Labor Day", nthWeekday year 8 1 1),
    ("Fall Break", nthWeekday year 9 4 3),
    ("Thanksgiving", nthWeekday year 10 4 4),
    ("Christmas 1st half", mkDate year 11 24),
    ("Christmas 2nd half", mkDate year 11 26) ]

/-- Source `ScheduleConfig.weekdayOvernight`. -/
structure WeekdayOvernight where
  parent : Party
  pickupDay : String
  dropoffDay : String
deriving DecidableEq

/-- Source `ScheduleConfig.alternatingWeekends`; `referenceDate` holds the
epoch day denoted by the configured ISO date string. -/
structure AlternatingWeekends where
  referenceDate : Int
  pickupDay : String
  pickupTime : String
  dropoffDay : String
  dropoffTime : String
deriving DecidableEq

/-- Source `ScheduleConfig.holidays`. -/
structure HolidayRules where
  evenYearUser : List String
  oddYearUser : List String
  alwaysUser : List String
  alwaysCoparent : List String
deriving DecidableEq

/-- Source `ScheduleConfig` (the parsed `config/schedule.json`). -/
structure ScheduleConfig where
  weekdayOvernight : WeekdayOvernight
  alternatingWeekends : AlternatingWeekends
  holidays : HolidayRules
deriving DecidableEq

/-- Source `HolidayAssignment`. -/
structure HolidayAssignment where
  name : String
  date : Int
  parent : Party
deriving DecidableEq

/-- Source `CustodyTransition`. -/
structure CustodyTransition where
  date : Int
  description : String
deriving DecidableEq

/-- Source `loadConfig`: the file-existence check is the only failure;
`JSON.parse` with a TypeScript type assertion performs no field
validation, so any parsed configuration record is accepted as-is.  The
`Option` argument models presence of `config/schedule.json`. -/
def loadConfig (file : Option ScheduleConfig) : Except String ScheduleConfig :=
  match file with
  | none => Except.error
      "config/schedule.json not found. Copy config/schedule.example.json and customize it."
  | some c => Except.ok c

/-- Holiday-to-party resolution chain shared by
`getHolidayAssignmentsForDate` and `getUpcomingHolidays` in the source
(`alwaysUser`, then `alwaysCoparent`, then year parity against
`evenYearUser` / `oddYearUser`). -/
def holidayParent (cfg : ScheduleConfig) (name : String) (year : Int) : Party :=
  if cfg.holidays.alwaysUser.contains name then Party.user
  else if cfg.holidays.alwaysCoparent.contains name then Party.coparent
  else if year % 2 = 0 then
    (if cfg.holidays.evenYearUser.contains name then Party.user else Party.coparent)
  else
    (if cfg.holidays.oddYearUser.contains name then Party.user else Party.coparent)

/-- Source `getHolidayAssignmentsForDate`: the holidays of the year of
`date` whose date is exactly `date` (`diffDays(date, holidayDate) !== 0`
skips), each resolved to a party, in enumeration order. -/
def getHolidayAssignmentsForDate (cfg : ScheduleConfig) (date : Int) :
    List HolidayAssignment :=
  let year := yearOf date
  (getUtahHolidayDates year).filterMap (fun nd =>
    if date - nd.2 ≠ 0 then none
    else some { name := nd.1, date := nd.2, parent := holidayParent cfg nd.1 year })

/-- Source `isUserWeekend`: whole-day difference from the reference date,
weeks by `Math.floor` (floor division), even week = user weekend. -/
def isUserWeekend (cfg : ScheduleConfig) (date : Int) : Bool :=
  let ref := cfg.alternatingWeekends.referenceDate
  let days := date - ref
  let weeks := days / 7
  decide (weeks % 2 = 0)

/-- Source `isDayInRange` (nested in `getCustodyStatus`): cyclic
day-of-week interval containment, wrapping past Saturday into Sunday
when `start > stop`. -/
def isDayInRange (d start stop : Nat) : Bool :=
  if start ≤ stop then decide (start ≤ d ∧ d ≤ stop)
  else decide (start ≤ d ∨ d ≤ stop)

/-- Non-holiday tail of source `getCustodyStatus`: the alternating
weekend range check, then the weekday overnight check, then the default
party opposite the overnight parent.  `dayIndex` failures propagate as
the thrown `Invalid day name` errors do in the source. -/
def getCustodyStatusNonHoliday (cfg : ScheduleConfig) (d : Int) : Except String Party := do
  let dow := weekdayOf d
  let pickupDow ← dayIndex cfg.alternatingWeekends.pickupDay
  let dropoffDow ← dayIndex cfg.alternatingWeekends.dropoffDay
  if isDayInRange dow pickupDow dropoffDow then
    pure (if isUserWeekend cfg d then Party.user else Party.coparent)
  else do
    let overnightPickup ← dayIndex cfg.weekdayOvernight.pickupDay
    let overnightDropoff ← dayIndex cfg.weekdayOvernight.dropoffDay
    if dow = overnightPickup ∨ dow = overnightDropoff then
      pure cfg.weekdayOvernight.parent
    else
      pure (if cfg.weekdayOvernight.parent = Party.user then Party.coparent else Party.user)

/-- Source `getCustodyStatus`: holidays first (first assignment wins),
otherwise the weekend / overnight / default chain. -/
def getCustodyStatus (cfg : ScheduleConfig) (date : Int) : Except String Party :=
  match getHolidayAssignmentsForDate cfg date with
  | a :: _ => Except.ok a.parent
  | [] => getCustodyStatusNonHoliday cfg date

/-- Offset (in days, in 1..7) from `d` to the next occurrence of weekday
`pickupDow`, the source fallback `((pickupDow - date.getDay() + 7) % 7) || 7`. -/
def nextPickupOffset (pickupDow : Nat) (d : Int) : Int :=
  let r := ((pickupDow : Int) - (weekdayOf d : Int) + 7) % 7
  if r = 0 then 7 else r

/-- Day-by-day scan of source `getNextTransition`, from offset `i` with
`fuel` days remaining: first day whose status differs from `current`. -/
def findTransitionAux (cfg : ScheduleConfig) (date : Int) (current : Party) :
    Nat → Nat → Except String (Option (Int × Party))
  | _, 0 => Except.ok none
  | i, Nat.succ fuel => do
    let next := date + (i : Int)
    let nextStatus ← getCustodyStatus cfg next
    if nextStatus ≠ current then
      pure (some (next, nextStatus))
    else
      findTransitionAux cfg date current (i + 1) fuel

/-- Source `getNextTransition`: scan 14 days ahead for a status change;
otherwise fall back to the next alternating-weekend pickup weekday.
`coparentName` models `process.env.COPARENT_NAME || "co-parent"`. -/
def getNextTransition (coparentName : String) (cfg : ScheduleConfig) (date : Int) :
    Except String CustodyTransition := do
  let current ← getCustodyStatus cfg date
  match ← findTransitionAux cfg date current 1 14 with
  | some (next, nextStatus) =>
    let desc :=
      if nextStatus = Party.user then
        "Children come to you (" ++ formatDate next ++ ")"
      else
        "Children go to " ++ coparentName ++ " (" ++ formatDate next ++ ")"
    pure { date := next, description := desc }
  | none => do
    let pickupDow ← dayIndex cfg.alternatingWeekends.pickupDay
    let nextFriday := date + nextPickupOffset pickupDow date
    pure { date := nextFriday, description := "Next weekend: " ++ formatDate nextFriday }

/-- One line of source `getWeekSummary` (loop body for day `date + i`);
`userName` and `coparentName` model the environment-variable names. -/
def weekSummaryLine (userName coparentName : String) (cfg : ScheduleConfig)
    (date : Int) (i : Nat) : Except String String := do
  let d := date + (i : Int)
  let status ← getCustodyStatus cfg d
  let dayName := DAYS_SHORT.getD (weekdayOf d) ""
  let who := if status = Party.user then userName else coparentName
  let prevStatus ← getCustodyStatus cfg (date + (i : Int) - 1)
  let nextStatus ← getCustodyStatus cfg (date + (i : Int) + 1)
  let note :=
    if status ≠ prevStatus then " (pickup)"
    else if status ≠ nextStatus then " (drop-off)"
    else ""
  pure (dayName ++ ": " ++ who ++ note)

/-- Source `getWeekSummary` before the final join: the 7 per-day lines. -/
def getWeekSummaryLines (userName coparentName : String) (cfg : ScheduleConfig)
    (date : Int) : Except String (List String) :=
  (List.range 7).mapM (weekSummaryLine userName coparentName cfg date)

/-- Source `getWeekSummary`: the 7 lines joined with newlines. -/
def getWeekSummary (userName coparentName : String) (cfg : ScheduleConfig)
    (date : Int) : Except String String :=
  Functor.map (String.intercalate "\n") (getWeekSummaryLines userName coparentName cfg date)

/-- School event kinds from the school calendar configuration. -/
inductive SchoolEventType where
  | no_school : SchoolEventType
  | early_release : SchoolEventType
  | milestone : SchoolEventType
deriving DecidableEq, Repr

/-- Source school calendar `terms` entries; `start` and `stop` hold the
epoch days of the configured local dates (`parseLocalDate`). -/
structure SchoolTerm where
  name : String
  start : Int
  stop : Int
deriving DecidableEq

/-- Source school calendar `events` entries. -/
structure SchoolCalEvent where
  date : Int
  endDate : Option Int
  type : SchoolEventType
  name : String
deriving DecidableEq

/-- Source school calendar `schedule` block. -/
structure SchoolDailySchedule where
  regularStart : String
  regularEnd : String
  earlyOutStart : String
  earlyOutEnd : String
  earlyOutDays : List String
deriving DecidableEq

/-- Source school calendar `school` block. -/
structure SchoolInfo where
  name : String
  shortName : String
  year : String
  child : String
deriving DecidableEq

/-- Source `SchoolCalendarConfig` (the parsed `config/school-calendar.json`). -/
structure SchoolCalendarConfig where
  school : SchoolInfo
  schedule : SchoolDailySchedule
  terms : List SchoolTerm
  events : List SchoolCalEvent
deriving DecidableEq

/-- Session kinds of source `SchoolDayInfo.type`. -/
inductive SchoolDayType where
  | regular : SchoolDayType
  | early_release : SchoolDayType
  | no_school : SchoolDayType
  | not_in_session : SchoolDayType
deriving DecidableEq, Repr

/-- Source `SchoolDayInfo`. -/
structure SchoolDayInfo where
  type : SchoolDayType
  startTime : Option String := none
  endTime : Option String := none
  eventName : Option String := none
  term : Option String := none
  child : Option String := none
  schoolName : Option String := none
deriving DecidableEq

/-- Source `isWithinSchoolYear`: between the first term start and the
last term end, inclusive.  The source indexes `terms[0]` and
`terms[length - 1]` unconditionally; an empty `terms` list (on which the
source would throw a property access error) is outside the modelled
domain and mapped to `false`. -/
def isWithinSchoolYear (cal : SchoolCalendarConfig) (d : Int) : Bool :=
  match cal.terms.head?, cal.terms.getLast? with
  | some t0, some tn => decide (t0.start ≤ d ∧ d ≤ tn.stop)
  | _, _ => false

/-- Source `getCurrentTerm`: name of the first term containing `d`. -/
def getCurrentTerm (cal : SchoolCalendarConfig) (d : Int) : Option String :=
  (cal.terms.find? (fun term => decide (term.start ≤ d ∧ d ≤ term.stop))).map
    (fun term => term.name)

/-- Source `getEventsForDate`: events covering day `d` — a ranged event
covers its inclusive date span, a dated event covers exactly its date. -/
def getEventsForDate (cal : SchoolCalendarConfig) (d : Int) : List SchoolCalEvent :=
  cal.events.filter (fun event =>
    match event.endDate with
    | some endD => decide (event.date ≤ d ∧ d ≤ endD)
    | none => decide (d = event.date))

/-- Source `getSchoolSchedule` for a present calendar: priority order is
outside-school-year, weekend, `no_school` event, `early_release` event,
weekly early-out weekday, regular day. -/
def getSchoolSchedule (cal : SchoolCalendarConfig) (d : Int) : SchoolDayInfo :=
  let child := some cal.school.child
  let schoolName := some cal.school.shortName
  if !isWithinSchoolYear cal d then
    { type := SchoolDayType.not_in_session, child := child, schoolName := schoolName }
  else
    let term := getCurrentTerm cal d
    let dow := weekdayOf d
    if dow = 0 ∨ dow = 6 then
      { type := SchoolDayType.not_in_session, term := term, child := child,
        schoolName := schoolName }
    else
      let events := getEventsForDate cal d
      match events.find? (fun e => e.type = SchoolEventType.no_school) with
      | some noSchool =>
        { type := SchoolDayType.no_school, eventName := some noSchool.name, term := term,
          child := child, schoolName := schoolName }
      | none =>
        match events.find? (fun e => e.type = SchoolEventType.early_release) with
        | some earlyRelease =>
          { type := SchoolDayType.early_release,
            startTime := some cal.schedule.earlyOutStart,
            endTime := some cal.schedule.earlyOutEnd,
            eventName := some earlyRelease.name, term := term, child := child,
            schoolName := schoolName }
        | none =>
          if cal.schedule.earlyOutDays.contains (DAYS.getD dow "") then
            { type := SchoolDayType.early_release,
              startTime := some cal.schedule.earlyOutStart,
              endTime := some cal.schedule.earlyOutEnd,
              eventName := some "Weekly early release", term := term, child := child,
              schoolName := schoolName }
          else
            { type := SchoolDayType.regular,
              startTime := some cal.schedule.regularStart,
              endTime := some cal.schedule.regularEnd, term := term, child := child,
              schoolName := schoolName }

/-- Spec-side restatement (claim C1) of the custody resolution priority:
holiday assignment first, then the alternating-weekend range, then the
weekday overnight, then the party opposite the overnight party.  The four
numeric weekdays `pw`, `dw`, `op`, `od` are taken as already validated,
as the spec assumes of a loaded configuration. -/
def custodySpecStatus (cfg : ScheduleConfig) (pw dw op od : Nat) (d : Int) : Party :=
  match getHolidayAssignmentsForDate cfg d with
  | a :: _ => a.parent
  | [] =>
    if isDayInRange (weekdayOf d) pw dw then
      (if isUserWeekend cfg d then Party.user else Party.coparent)
    else if weekdayOf d = op ∨ weekdayOf d = od then cfg.weekdayOvernight.parent
    else if cfg.weekdayOvernight.parent = Party.user then Party.coparent
    else Party.user

/-- Spec-side event covering test (claim C9): a ranged event covers its
inclusive span, a dated event covers exactly its date. -/
def eventCovers (e : SchoolCalEvent) (d : Int) : Bool :=
  match e.endDate with
  | some endD => decide (e.date ≤ d ∧ d ≤ endD)
  | none => decide (d = e.date)

/-- Spec-side restatement (claim C9) of the school session resolution:
outside the term span, then weekend, then a covering `no_school` event,
then a covering `early_release` event, then the weekly early-out weekday
set, then a regular day.  Events are selected directly by
kind-and-coverage rather than by first filtering the day's events. -/
def schoolSessionSpec (cal : SchoolCalendarConfig) (d : Int) : SchoolDayInfo :=
  let child := some cal.school.child
  let schoolName := some cal.school.shortName
  if !isWithinSchoolYear cal d then
    { type := SchoolDayType.not_in_session, child := child, schoolName := schoolName }
  else
    let term := getCurrentTerm cal d
    if weekdayOf d = 0 ∨ weekdayOf d = 6 then
      { type := SchoolDayType.not_in_session, term := term, child := child,
        schoolName := schoolName }
    else
      match cal.events.find? (fun e => eventCovers e d && e.type = SchoolEventType.no_school) with
      | some noSchool =>
        { type := SchoolDayType.no_school, eventName := some noSchool.name, term := term,
          child := child, schoolName := schoolName }
      | none =>
        match cal.events.find?
            (fun e => eventCovers e d && e.type = SchoolEventType.early_release) with
        | some earlyRelease =>
          { type := SchoolDayType.early_release,
            startTime := some cal.schedule.earlyOutStart,
            endTime := some cal.schedule.earlyOutEnd,
            eventName := some earlyRelease.name, term := term, child := child,
            schoolName := schoolName }
        | none =>
          if cal.schedule.earlyOutDays.contains (DAYS.getD (weekdayOf d) "") then
            { type := SchoolDayType.early_release,
              startTime := some cal.schedule.earlyOutStart,
              endTime := some cal.schedule.earlyOutEnd,
              eventName := some "Weekly early release", term := term, child := child,
              schoolName := schoolName }
          else
            { type := SchoolDayType.regular,
              startTime := some cal.schedule.regularStart,
              endTime := some cal.schedule.regularEnd, term := term, child := child,
              schoolName := schoolName }

/-- Spec-side annotation (amended claim C7) of a week summary entry:
`" (pickup)"` when the party differs from the previous day, otherwise
`" (drop-off)"` when it differs from the next day, otherwise nothing,
for a total status function `S`. -/
def weekNoteSpec (S : Int → Party) (d : Int) (i : Nat) : String :=
  if S (d + i) ≠ S (d + (i : Int) - 1) then " (pickup)"
  else if S (d + i) ≠ S (d + (i : Int) + 1) then " (drop-off)"
  else ""

/-- Spec-side week summary entry (amended claim C7): short weekday label,
assigned party name, and the transition annotation. -/
def weekLineSpec (userName coparentName : String) (S : Int → Party) (d : Int) (i : Nat) :
    String :=
  DAYS_SHORT.getD (weekdayOf (d + i)) "" ++ ": "
    ++ (if S (d + i) = Party.user then userName else coparentName)
    ++ weekNoteSpec S d i

/-- Sample valid configuration: Wednesday overnight for the user,
Friday-to-Sunday alternating weekends anchored at Friday 2024-01-05, and
a small holiday rule set. -/
def cfgExample : ScheduleConfig :=
  { weekdayOvernight :=
      { parent := Party.user, pickupDay := "wednesday", dropoffDay := "thursday" },
    alternatingWeekends :=
      { referenceDate := mkDate 2024 0 5, pickupDay := "friday", pickupTime := "18:00",
        dropoffDay := "sunday", dropoffTime := "18:00" },
    holidays :=
      { evenYearUser := ["MLK Day"], oddYearUser := ["Thanksgiving"],
        alwaysUser := ["Mother\x27s Day"], alwaysCoparent := ["Father\x27s Day"] } }

/-- Valid configuration producing a one-day custody window: the single
Wednesday overnight is sandwiched between coparent days on both sides. -/
def cfgSandwich : ScheduleConfig :=
  { weekdayOvernight :=
      { parent := Party.user, pickupDay := "wednesday", dropoffDay := "wednesday" },
    alternatingWeekends :=
      { referenceDate := mkDate 2024 0 5, pickupDay := "friday", pickupTime := "18:00",
        dropoffDay := "sunday", dropoffTime := "18:00" },
    holidays :=
      { evenYearUser := [], oddYearUser := [], alwaysUser := [], alwaysCoparent := [] } }

/-- Configuration whose alternating-weekend pickup day is not a
recognised day name. -/
def cfgInvalidDay : ScheduleConfig :=
  { weekdayOvernight :=
      { parent := Party.user, pickupDay := "wednesday", dropoffDay := "thursday" },
    alternatingWeekends :=
      { referenceDate := mkDate 2024 0 5, pickupDay := "friyay", pickupTime := "18:00",
        dropoffDay := "sunday", dropoffTime := "18:00" },
    holidays :=
      { evenYearUser := [], oddYearUser := [], alwaysUser := [], alwaysCoparent := [] } }

/-- Sample school calendar with one term, a weekly Friday early-out and
a ranged `no_school` event over Thanksgiving break. -/
def calExample : SchoolCalendarConfig :=
  { school :=
      { name := "Example Elementary", shortName := "EES", year := "2024-25", child := "Kid" },
    schedule :=
      { regularStart := "08:30", regularEnd := "15:30", earlyOutStart := "08:30",
        earlyOutEnd := "13:30", earlyOutDays := ["friday"] },
    terms := [{ name := "Term 1", start := mkDate 2024 7 20, stop := mkDate 2024 11 20 }],
    events := [{ date := mkDate 2024 10 27, endDate := some (mkDate 2024 10 29),
                 type := SchoolEventType.no_school, name := "Thanksgiving Break" }] }

theorem mkDate_affine (y : Int) (m : Nat) (d : Int) : mkDate y m d = mkDate y m 0 + d := by
  simp only [mkDate, daysFromCivil]
  ring

theorem month_rollover (y : Int) (m : Nat) (h : m < 12) :
    mkDate y (m + 1) 0 = mkDate y m (daysInMonth y m : Int) := by
  interval_cases m <;>
    simp only [mkDate, daysFromCivil, cumDays, daysInMonth] <;>
    cases hL : isLeap y <;> simp [hL] <;> ring

theorem getCustodyStatus_eq_spec (cfg : ScheduleConfig) (pw dw op od : Nat)
    (hpw : dayIndex cfg.alternatingWeekends.pickupDay = Except.ok pw)
    (hdw : dayIndex cfg.alternatingWeekends.dropoffDay = Except.ok dw)
    (hop : dayIndex cfg.weekdayOvernight.pickupDay = Except.ok op)
    (hod : dayIndex cfg.weekdayOvernight.dropoffDay = Except.ok od)
    (d : Int) :
    getCustodyStatus cfg d = Except.ok (custodySpecStatus cfg pw dw op od d) := by
  unfold getCustodyStatus custodySpecStatus getCustodyStatusNonHoliday
  cases h : getHolidayAssignmentsForDate cfg d with
  | cons a l => rfl
  | nil =>
    simp only [hpw, hdw, hop, hod, bind, Except.bind]
    split_ifs <;> rfl

theorem mapM_ok_of_forall {α β : Type} (f : α → Except String β) (g : α → β) :
    ∀ l : List α, (∀ a ∈ l, f a = Except.ok (g a)) → l.mapM f = Except.ok (l.map g) := by
  intro l
  induction l with
  | nil => intro _; rfl
  | cons x xs ih =>
    intro h
    rw [List.mapM_cons, h x (by simp), ih (fun a ha => h a (by simp [ha]))]
    rfl

theorem find?_filter_of_imp {α : Type} (p q : α → Bool) (h : ∀ x, p x = true → q x = true) :
    ∀ l : List α, (l.filter q).find? p = l.find? p := by
  intro l
  induction l with
  | nil => rfl
  | cons x xs ih =>
    by_cases hq : q x
    · rw [List.filter_cons_of_pos hq]
      by_cases hp : p x
      · rw [List.find?_cons_of_pos _ hp, List.find?_cons_of_pos _ hp]
      · rw [List.find?_cons_of_neg _ (by simp [hp]), List.find?_cons_of_neg _ (by simp [hp]), ih]
    · rw [List.filter_cons_of_neg hq]
      have hp : p x = false := by
        cases hpx : p x with
        | false => rfl
        | true => exact absurd (h x hpx) hq
      rw [List.find?_cons_of_neg _ (by simp [hp]), ih]

theorem findTransitionAux_none (cfg : ScheduleConfig) (d : Int) (cur : Party)
    (S : Int → Party) (hS : ∀ z, getCustodyStatus cfg z = Except.ok (S z)) :
    ∀ (fuel i : Nat), (∀ j : Nat, i ≤ j → j < i + fuel → S (d + j) = cur) →
      findTransitionAux cfg d cur i fuel = Except.ok none := by
  intro fuel
  induction fuel with
  | zero => intro i _; rfl
  | succ n ih =>
    intro i h
    have hcur : S (d + i) = cur := h i (by omega) (by omega)
    unfold findTransitionAux
    simp only [hS, Except.bind, bind, hcur]
    simp only [ne_eq, not_true_eq_false, if_false, ite_false, reduceIte]
    exact ih (i + 1) (fun j h1 h2 => h j (by omega) (by omega))

theorem findTransitionAux_found (cfg : ScheduleConfig) (d : Int) (cur : Party)
    (S : Int → Party) (hS : ∀ z, getCustodyStatus cfg z = Except.ok (S z)) :
    ∀ (fuel i j : Nat), i ≤ j → j < i + fuel → S (d + j) ≠ cur →
      (∀ k : Nat, i ≤ k → k < j → S (d + k) = cur) →
      findTransitionAux cfg d cur i fuel = Except.ok (some (d + j, S (d + j))) := by
  intro fuel
  induction fuel with
  | zero => intro i j h1 h2; omega
  | succ n ih =>
    intro i j h1 h2 hne hmin
    unfold findTransitionAux
    simp only [hS, Except.bind, bind]
    by_cases hij : i = j
    · subst hij
      simp only [ne_eq, hne, not_false_eq_true, if_true, ite_true, reduceIte, pure, Except.pure]
    · have hcur : S (d + i) = cur := hmin i (by omega) (by omega)
      simp only [hcur, ne_eq, not_true_eq_false, if_false, ite_false, reduceIte]
      exact ih (i + 1) j (by omega) (by omega) hne (fun k hk1 hk2 => hmin k (by omega) hk2)

theorem cumDays_le_304 (M : Nat) (h : M ≤ 11) : cumDays M ≤ 304 := by
  interval_cases M <;> decide

theorem yearStart_succ_bounds (y : Int) :
    365 ≤ mkDate (y + 1) 0 1 - mkDate y 0 1 ∧ mkDate (y + 1) 0 1 - mkDate y 0 1 ≤ 366 := by
  simp only [mkDate, daysFromCivil, cumDays]
  norm_num
  omega

theorem yearStart_mono_lower (a b : Int) (hab : a ≤ b) :
    mkDate a 0 1 + 365 * (b - a) ≤ mkDate b 0 1 := by
  obtain ⟨k, hk⟩ : ∃ k : Nat, b = a + k := ⟨(b - a).toNat, by omega⟩
  subst hk
  induction k with
  | zero => simp
  | succ n ih =>
    have hstep := yearStart_succ_bounds (a + (n : Int))
    have heq : (a + ((n + 1 : Nat) : Int)) = (a + (n : Int)) + 1 := by push_cast; ring
    rw [heq]
    have ih2 := ih (by omega)
    omega

theorem mkDate_sub_yearStart (y : Int) (m : Nat) (d : Int) :
    mkDate y m d - mkDate y 0 1 =
      (cumDays (m + 1) : Int) + (if 2 < m + 1 ∧ isLeap y = true then 1 else 0) + d - 1 := by
  simp only [mkDate, daysFromCivil, cumDays]
  norm_num
  split_ifs <;> omega

theorem ne_dec25_of_early_month (Y' Y : Int) (m : Nat) (d : Int)
    (hm : m ≤ 10) (hd1 : 1 ≤ d) (hd2 : d ≤ 31) :
    mkDate Y' m d ≠ mkDate Y 11 25 := by
  intro heq
  have hc' : (cumDays (m + 1) : Int) ≤ 304 := by
    exact_mod_cast cumDays_le_304 (m + 1) (by omega)
  have hc0 : (0 : Int) ≤ (cumDays (m + 1) : Int) := by positivity
  have h1 := mkDate_sub_yearStart Y' m d
  have h2 := mkDate_sub_yearStart Y 11 25
  have h334 : (cumDays (11 + 1) : Int) = 334 := rfl
  rcases lt_trichotomy Y' Y with h | h | h
  · have hmono := yearStart_mono_lower Y' Y (by omega)
    split_ifs at h1 h2 <;> omega
  · subst h
    split_ifs at h1 h2 <;> omega
  · have hmono := yearStart_mono_lower Y Y' (by omega)
    split_ifs at h1 h2 <;> omega

theorem dec_day_ne_dec25 (Y' Y : Int) (d : Int) (hd1 : 1 ≤ d) (hd2 : d ≤ 31)
    (hne : d ≠ 25) : mkDate Y' 11 d ≠ mkDate Y 11 25 := by
  intro heq
  have h1 := mkDate_sub_yearStart Y' 11 d
  have h2 := mkDate_sub_yearStart Y 11 25
  have h334 : (cumDays (11 + 1) : Int) = 334 := rfl
  rcases lt_trichotomy Y' Y with h | h | h
  · have hmono := yearStart_mono_lower Y' Y (by omega)
    split_ifs at h1 h2 <;> omega
  · subst h
    split_ifs at h1 h2 <;> omega
  · have hmono := yearStart_mono_lower Y Y' (by omega)
    split_ifs at h1 h2 <;> omega

theorem nthWeekday_day_range (y : Int) (m : Nat) (w n : Nat) (hn : n ≤ 4) :
    ∃ dv : Nat, nthWeekday y m w n = mkDate y m (dv : Int) ∧ 1 ≤ dv ∧ dv ≤ 28 := by
  refine ⟨1 + (w + 7 - weekdayOf (mkDate y m 1)) % 7 + (n - 1) * 7, rfl, by omega, ?_⟩
  have h7 : (w + 7 - weekdayOf (mkDate y m 1)) % 7 < 7 := Nat.mod_lt _ (by omega)
  omega

theorem daysInMonth_bounds (y : Int) (m : Nat) :
    28 ≤ daysInMonth y m ∧ daysInMonth y m ≤ 31 := by
  unfold daysInMonth
  split <;> first | omega | (split <;> omega)

theorem lastWeekday_day_range (y : Int) (m : Nat) (w : Nat) :
    ∃ dv : Int, lastWeekday y m w = mkDate y m dv ∧ 22 ≤ dv ∧ dv ≤ 31 := by
  have hb := daysInMonth_bounds y m
  refine ⟨(daysInMonth y m : Int)
      - ((weekdayOf (mkDate y m (daysInMonth y m : Int)) + 7 - w) % 7 : Nat), rfl, ?_, ?_⟩ <;>
  · have h7 : (weekdayOf (mkDate y m (daysInMonth y m : Int)) + 7 - w) % 7 < 7 :=
      Nat.mod_lt _ (by omega)
    omega

theorem utahHoliday_ne_dec25 (Y' Y : Int) (p : String × Int)
    (hp : p ∈ getUtahHolidayDates Y') : p.2 ≠ mkDate Y 11 25 := by
  have hN := nthWeekday_day_range Y'
  have hL := lastWeekday_day_range Y'
  simp only [getUtahHolidayDates, List.mem_cons, List.not_mem_nil, or_false] at hp
  rcases hp with h | h | h | h | h | h | h | h | h | h | h | h | h | h <;> subst h <;> simp only
  · exact ne_dec25_of_early_month Y' Y 0 1 (by omega) (by omega) (by omega)
  · obtain ⟨dv, hdv, h1, h2⟩ := hN 0 1 3 (by omega)
    rw [hdv]
    exact ne_dec25_of_early_month Y' Y 0 (dv : Int) (by omega) (by exact_mod_cast h1)
      (by exact_mod_cast (by omega : dv ≤ 31))
  · obtain ⟨dv, hdv, h1, h2⟩ := hN 1 1 3 (by omega)
    rw [hdv]
    exact ne_dec25_of_early_month Y' Y 1 (dv : Int) (by omega) (by exact_mod_cast h1)
      (by exact_mod_cast (by omega : dv ≤ 31))
  · obtain ⟨dv, hdv, h1, h2⟩ := hN 2 1 3 (by omega)
    rw [hdv]
    exact ne_dec25_of_early_month Y' Y 2 (dv : Int) (by omega) (by exact_mod_cast h1)
      (by exact_mod_cast (by omega : dv ≤ 31))
  · obtain ⟨dv, hdv, h1, h2⟩ := hL 4 1
    rw [hdv]
    exact ne_dec25_of_early_month Y' Y 4 dv (by omega) (by omega) (by omega)
  · obtain ⟨dv, hdv, h1, h2⟩ := hN 5 0 3 (by omega)
    rw [hdv]
    exact ne_dec25_of_early_month Y' Y 5 (dv : Int) (by omega) (by exact_mod_cast h1)
      (by exact_mod_cast (by omega : dv ≤ 31))
  · obtain ⟨dv, hdv, h1, h2⟩ := hN 4 0 2 (by omega)
    rw [hdv]
    exact ne_dec25_of_early_month Y' Y 4 (dv : Int) (by omega) (by exact_mod_cast h1)
      (by exact_mod_cast (by omega : dv ≤ 31))
  · exact ne_dec25_of_early_month Y' Y 6 4 (by omega) (by omega) (by omega)
  · exact ne_dec25_of_early_month Y' Y 6 24 (by omega) (by omega) (by omega)
  · obtain ⟨dv, hdv, h1, h2⟩ := hN 8 1 1 (by omega)
    rw [hdv]
    exact ne_dec25_of_early_month Y' Y 8 (dv : Int) (by omega) (by exact_mod_cast h1)
      (by exact_mod_cast (by omega : dv ≤ 31))
  · obtain ⟨dv, hdv, h1, h2⟩ := hN 9 4 3 (by omega)
    rw [hdv]
    exact ne_dec25_of_early_month Y' Y 9 (dv : Int) (by omega) (by exact_mod_cast h1)
      (by exact_mod_cast (by omega : dv ≤ 31))
  · obtain ⟨dv, hdv, h1, h2⟩ := hN 10 4 4 (by omega)
    rw [hdv]
    exact ne_dec25_of_early_month Y' Y 10 (dv : Int) (by omega) (by exact_mod_cast h1)
      (by exact_mod_cast (by omega : dv ≤ 31))
  · exact dec_day_ne_dec25 Y' Y 24 (by omega) (by omega) (by omega)
  · exact dec_day_ne_dec25 Y' Y 26 (by omega) (by omega) (by omega)

theorem holidayAssignments_dec25_empty (cfg : ScheduleConfig) (Y : Int) :
    getHolidayAssignmentsForDate cfg (mkDate Y 11 25) = [] := by
  unfold getHolidayAssignmentsForDate
  rw [List.filterMap_eq_nil_iff]
  intro p hp
  have hne := utahHoliday_ne_dec25 (yearOf (mkDate Y 11 25)) Y p hp
  have hsub : mkDate Y 11 25 - p.2 ≠ 0 := by
    intro h0
    exact hne (by omega)
  simp [hsub]

theorem find?_filter_eq {α : Type} (p q : α → Bool) :
    ∀ l : List α, (l.filter p).find? q = l.find? (fun a => p a && q a) := by
  intro l
  induction l with
  | nil => rfl
  | cons x xs ih =>
    by_cases hp : p x
    · rw [List.filter_cons_of_pos hp]
      by_cases hq : q x
      · rw [List.find?_cons_of_pos _ hq, List.find?_cons_of_pos _ (by simp [hp, hq])]
      · rw [List.find?_cons_of_neg _ (by simp [hq]),
          List.find?_cons_of_neg _ (by simp [hp, hq]), ih]
    · rw [List.filter_cons_of_neg hp, List.find?_cons_of_neg _ (by simp [hp]), ih]

theorem getEventsForDate_eq_filter (cal : SchoolCalendarConfig) (d : Int) :
    getEventsForDate cal d = cal.events.filter (fun e => eventCovers e d) := rfl

theorem getSchoolSchedule_eq_spec (cal : SchoolCalendarConfig) (d : Int) :
    getSchoolSchedule cal d = schoolSessionSpec cal d := by
  simp only [getSchoolSchedule, schoolSessionSpec, getEventsForDate_eq_filter, find?_filter_eq]

theorem getSchoolSchedule_filter_milestones (cal : SchoolCalendarConfig) (d : Int) :
    getSchoolSchedule
      { cal with events := cal.events.filter (fun e => decide (e.type ≠ SchoolEventType.milestone)) } d
      = getSchoolSchedule cal d := by
  have h1 : ∀ x : SchoolCalEvent, decide (x.type = SchoolEventType.no_school) = true →
      decide (x.type ≠ SchoolEventType.milestone) = true := by
    intro x hx
    simp only [decide_eq_true_eq] at hx ⊢
    rw [hx]
    intro hcon
    cases hcon
  have h2 : ∀ x : SchoolCalEvent, decide (x.type = SchoolEventType.early_release) = true →
      decide (x.type ≠ SchoolEventType.milestone) = true := by
    intro x hx
    simp only [decide_eq_true_eq] at hx ⊢
    rw [hx]
    intro hcon
    cases hcon
  have hev : getEventsForDate
      { cal with events := cal.events.filter (fun e => decide (e.type ≠ SchoolEventType.milestone)) } d
      = (getEventsForDate cal d).filter (fun e => decide (e.type ≠ SchoolEventType.milestone)) := by
    rw [getEventsForDate_eq_filter, getEventsForDate_eq_filter]
    show (cal.events.filter (fun e => decide (e.type ≠ SchoolEventType.milestone))).filter
        (fun e => eventCovers e d) = _
    rw [List.filter_filter, List.filter_filter]
    apply List.filter_congr
    intro x _
    rw [Bool.and_comm]
  have hns := find?_filter_of_imp (fun e => decide (e.type = SchoolEventType.no_school))
    (fun e => decide (e.type ≠ SchoolEventType.milestone)) h1 (getEventsForDate cal d)
  have her := find?_filter_of_imp (fun e => decide (e.type = SchoolEventType.early_release))
    (fun e => decide (e.type ≠ SchoolEventType.milestone)) h2 (getEventsForDate cal d)
  have hwy : isWithinSchoolYear
      { cal with events := cal.events.filter (fun e => decide (e.type ≠ SchoolEventType.milestone)) } d
      = isWithinSchoolYear cal d := rfl
  have hct : getCurrentTerm
      { cal with events := cal.events.filter (fun e => decide (e.type ≠ SchoolEventType.milestone)) } d
      = getCurrentTerm cal d := rfl
  simp only [getSchoolSchedule, hev, hns, her, hwy, hct]

theorem nextPickupOffset_bounds (pw : Nat) (d : Int) :
    1 ≤ nextPickupOffset pw d ∧ nextPickupOffset pw d ≤ 7 := by
  simp only [nextPickupOffset]
  split_ifs with h <;> omega

/-- Claim C1: for a valid configuration, `getCustodyStatus` resolves in
strict priority order — holiday assignment, then the alternating-weekend
range (decided by weekend parity), then the weekday overnight, then the
party opposite the overnight party; in particular any date carryng a
holiday assignment returns that first assignment party regardless of the
weekend rule. -/
theorem claim_C1 (cfg : ScheduleConfig) (pw dw op od : Nat)
    (hpw : dayIndex cfg.alternatingWeekends.pickupDay = Except.ok pw)
    (hdw : dayIndex cfg.alternatingWeekends.dropoffDay = Except.ok dw)
    (hop : dayIndex cfg.weekdayOvernight.pickupDay = Except.ok op)
    (hod : dayIndex cfg.weekdayOvernight.dropoffDay = Except.ok od)
    (d : Int) :
    getCustodyStatus cfg d = Except.ok (custodySpecStatus cfg pw dw op od d) ∧
    (∀ (a : HolidayAssignment) (rest : List HolidayAssignment),
      getHolidayAssignmentsForDate cfg d = a :: rest →
      getCustodyStatus cfg d = Except.ok a.parent) := by
  refine ⟨getCustodyStatus_eq_spec cfg pw dw op od hpw hdw hop hod d, ?_⟩
  intro a rest h
  unfold getCustodyStatus
  rw [h]

/-- Witness for claim C1 at the sample configuration on 2024-01-15 (MLK
Day, an even year, listed in `evenYearUser`, hence the user party). -/
theorem claim_C1_witness :
    getCustodyStatus cfgExample (mkDate 2024 0 15) =
      Except.ok (custodySpecStatus cfgExample 5 0 3 4 (mkDate 2024 0 15)) ∧
    custodySpecStatus cfgExample 5 0 3 4 (mkDate 2024 0 15) = Party.user :=
  ⟨(claim_C1 cfgExample 5 0 3 4 (by decide) (by decide) (by decide) (by decide)
    (mkDate 2024 0 15)).1, by decide⟩

/-- Claim C2: `isUserWeekend` counts whole days from the reference date,
takes weeks by floor division (toward negative infinity), and answers by
week parity — so the answer flips every 7 days and repeats every 14 days
on both sides of the reference date.  Concretely, with reference
2024-01-05: that weekend is the user party, 2024-01-12 the coparent, and
2023-12-29 (one alternation earlier) the coparent; 2024-01-02, three days
before the reference, already lies in the earlier (coparent) week, which
truncating division would misclassify. -/
theorem claim_C2 :
    (∀ (cfg : ScheduleConfig) (d : Int),
      (isUserWeekend cfg d = true ↔
        ((d - cfg.alternatingWeekends.referenceDate) / 7) % 2 = 0)) ∧
    (∀ (cfg : ScheduleConfig) (d : Int), isUserWeekend cfg (d + 7) = !isUserWeekend cfg d) ∧
    (∀ (cfg : ScheduleConfig) (d : Int), isUserWeekend cfg (d - 14) = isUserWeekend cfg d) ∧
    isUserWeekend cfgExample (mkDate 2024 0 5) = true ∧
    isUserWeekend cfgExample (mkDate 2024 0 12) = false ∧
    isUserWeekend cfgExample (mkDate 2023 11 29) = false ∧
    isUserWeekend cfgExample (mkDate 2024 0 2) = false := by
  refine ⟨?_, ?_, ?_, by decide, by decide, by decide, by decide⟩
  · intro cfg d
    simp [isUserWeekend]
  · intro cfg d
    have harg : d + 7 - cfg.alternatingWeekends.referenceDate
        = d - cfg.alternatingWeekends.referenceDate + 7 := by ring
    simp only [isUserWeekend, harg]
    by_cases h : ((d - cfg.alternatingWeekends.referenceDate) / 7) % 2 = 0
    · rw [decide_eq_true h, decide_eq_false (by omega :
        ¬ (((d - cfg.alternatingWeekends.referenceDate + 7) / 7) % 2 = 0))]
      rfl
    · rw [decide_eq_false h, decide_eq_true (by omega :
        ((d - cfg.alternatingWeekends.referenceDate + 7) / 7) % 2 = 0)]
      rfl
  · intro cfg d
    have harg : d - 14 - cfg.alternatingWeekends.referenceDate
        = d - cfg.alternatingWeekends.referenceDate - 14 := by ring
    simp only [isUserWeekend, harg]
    by_cases h : ((d - cfg.alternatingWeekends.referenceDate) / 7) % 2 = 0
    · rw [decide_eq_true h, decide_eq_true (by omega :
        (((d - cfg.alternatingWeekends.referenceDate - 14) / 7) % 2 = 0))]
    · rw [decide_eq_false h, decide_eq_false (by omega :
        ¬ (((d - cfg.alternatingWeekends.referenceDate - 14) / 7) % 2 = 0))]

/-- Witness for claim C2: the flip property applied one week after the
sample reference date. -/
theorem claim_C2_witness :
    isUserWeekend cfgExample (mkDate 2024 0 5 + 7) = !isUserWeekend cfgExample (mkDate 2024 0 5) :=
  claim_C2.2.1 cfgExample (mkDate 2024 0 5)

/-- Claim C3: the weekend range test is cyclic-interval containment over
the 7-day week — equivalent to comparing offsets from the pickup day
modulo 7 — reducing to plain interval containment when the pickup index
does not exceed the dropoff index and to the wrapped disjunction
otherwise, and it classifies every weekday correctly for both a
Friday-to-Sunday and a Saturday-to-Monday configured range. -/
theorem claim_C3 :
    (∀ w p q : Nat, w < 7 → p < 7 → q < 7 →
      (isDayInRange w p q = true ↔
        ((w : Int) - p) % 7 ≤ ((q : Int) - p) % 7)) ∧
    (∀ w p q : Nat, p ≤ q → (isDayInRange w p q = true ↔ (p ≤ w ∧ w ≤ q))) ∧
    (∀ w p q : Nat, q < p → (isDayInRange w p q = true ↔ (p ≤ w ∨ w ≤ q))) ∧
    (∀ w : Nat, w < 7 → (isDayInRange w 5 0 = true ↔ (w = 5 ∨ w = 6 ∨ w = 0))) ∧
    (∀ w : Nat, w < 7 → (isDayInRange w 6 1 = true ↔ (w = 6 ∨ w = 0 ∨ w = 1))) := by
  refine ⟨?_, ?_, ?_, ?_, ?_⟩
  · intro w p q hw hp hq
    unfold isDayInRange
    split_ifs with h <;> simp only [decide_eq_true_eq] <;> omega
  · intro w p q h
    unfold isDayInRange
    rw [if_pos h]
    simp
  · intro w p q h
    unfold isDayInRange
    rw [if_neg (by omega)]
    simp
  · intro w hw
    interval_cases w <;> decide
  · intro w hw
    interval_cases w <;> decide

/-- Witness for claim C3: the cyclic characterisation applied to
Saturday inside the wrapped Friday-to-Sunday range. -/
theorem claim_C3_witness :
    isDayInRange 6 5 0 = true ↔ ((6 : Int) - 5) % 7 ≤ ((0 : Int) - 5) % 7 :=
  claim_C3.1 6 5 0 (by decide) (by decide) (by decide)

/-- Claim C5: holiday assignment resolution is a strict priority chain —
`alwaysUser`, then `alwaysCoparent`, then year-parity rotation against
`evenYearUser` or `oddYearUser` — every assignment produced for a date
uses exactly this resolution, and a holiday listed in `evenYearUser` is
the user party in 2024 and the coparent party in 2025 absent an
always-override. -/
theorem claim_C5 :
    (∀ (cfg : ScheduleConfig) (name : String) (year : Int),
      (cfg.holidays.alwaysUser.contains name = true →
        holidayParent cfg name year = Party.user) ∧
      (cfg.holidays.alwaysUser.contains name = false →
        cfg.holidays.alwaysCoparent.contains name = true →
        holidayParent cfg name year = Party.coparent) ∧
      (cfg.holidays.alwaysUser.contains name = false →
        cfg.holidays.alwaysCoparent.contains name = false → year % 2 = 0 →
        (holidayParent cfg name year = Party.user ↔
          cfg.holidays.evenYearUser.contains name = true)) ∧
      (cfg.holidays.alwaysUser.contains name = false →
        cfg.holidays.alwaysCoparent.contains name = false → year % 2 ≠ 0 →
        (holidayParent cfg name year = Party.user ↔
          cfg.holidays.oddYearUser.contains name = true))) ∧
    (∀ (cfg : ScheduleConfig) (date : Int) (a : HolidayAssignment),
      a ∈ getHolidayAssignmentsForDate cfg date →
      a.parent = holidayParent cfg a.name (yearOf date)) ∧
    holidayParent cfgExample "MLK Day" 2024 = Party.user ∧
    holidayParent cfgExample "MLK Day" 2025 = Party.coparent := by
  refine ⟨?_, ?_, by decide, by decide⟩
  · intro cfg name year
    unfold holidayParent
    refine ⟨fun h => ?_, fun h1 h2 => ?_, fun h1 h2 h3 => ?_, fun h1 h2 h3 => ?_⟩
    · rw [if_pos h]
    · rw [if_neg (by rw [h1]; exact Bool.false_ne_true), if_pos h2]
    · rw [if_neg (by rw [h1]; exact Bool.false_ne_true),
        if_neg (by rw [h2]; exact Bool.false_ne_true), if_pos h3]
      by_cases he : cfg.holidays.evenYearUser.contains name = true
      · rw [if_pos he]
        exact ⟨fun _ => he, fun _ => rfl⟩
      · rw [if_neg he]
        exact ⟨fun hco => Party.noConfusion hco, fun hcon => absurd hcon he⟩
    · rw [if_neg (by rw [h1]; exact Bool.false_ne_true),
        if_neg (by rw [h2]; exact Bool.false_ne_true), if_neg h3]
      by_cases ho : cfg.holidays.oddYearUser.contains name = true
      · rw [if_pos ho]
        exact ⟨fun _ => ho, fun _ => rfl⟩
      · rw [if_neg ho]
        exact ⟨fun hco => Party.noConfusion hco, fun hcon => absurd hcon ho⟩
  · intro cfg date a ha
    simp only [getHolidayAssignmentsForDate, List.mem_filterMap] at ha
    obtain ⟨nd, hmem, hnd⟩ := ha
    by_cases h : date - nd.2 ≠ 0
    · simp [h] at hnd
    · simp only [h, if_false, Option.some.injEq] at hnd
      cases hnd
      rfl

/-- Witness for claim C5: the rotation clause evaluated for MLK Day in
the sample configuration for the even year 2024. -/
theorem claim_C5_witness :
    holidayParent cfgExample "MLK Day" 2024 = Party.user ↔
      cfgExample.holidays.evenYearUser.contains "MLK Day" = true :=
  ((claim_C5.1 cfgExample "MLK Day" 2024).2.2.1 (by decide) (by decide) (by decide))

/-- Counterexample to claim C8: a configuration whose alternating-weekend
pickup day is the unrecognised string `"friyay"` loads successfully (the
load performs no weekday validation), yet the custody query on the
non-holiday date 2024-01-03 fails with the invalid-day-name error — so
the failure is raised at query time, not at configuration-load time. -/
theorem claim_C8_counterexample :
    loadConfig (some cfgInvalidDay) = Except.ok cfgInvalidDay ∧
    getCustodyStatus cfgInvalidDay (mkDate 2024 0 3) =
      Except.error "Invalid day name: friyay" :=
  ⟨rfl, by decide⟩

/-- Amended claim C8: loading never validates weekday names — any parsed
configuration loads successfully — and the invalid-weekday failure is
instead raised by the custody query itself; once the four configured
weekday names resolve through `dayIndex`, every custody query succeeds. -/
theorem claim_C8 :
    (∀ c : ScheduleConfig, loadConfig (some c) = Except.ok c) ∧
    (∀ (cfg : ScheduleConfig) (pw dw op od : Nat),
      dayIndex cfg.alternatingWeekends.pickupDay = Except.ok pw →
      dayIndex cfg.alternatingWeekends.dropoffDay = Except.ok dw →
      dayIndex cfg.weekdayOvernight.pickupDay = Except.ok op →
      dayIndex cfg.weekdayOvernight.dropoffDay = Except.ok od →
      ∀ d : Int, ∃ party : Party, getCustodyStatus cfg d = Except.ok party) :=
  ⟨fun _ => rfl, fun cfg pw dw op od h1 h2 h3 h4 d =>
    ⟨custodySpecStatus cfg pw dw op od d, getCustodyStatus_eq_spec cfg pw dw op od h1 h2 h3 h4 d⟩⟩

/-- Witness for amended claim C8: the sample configuration loads and its
custody query on 2024-01-03 succeeds. -/
theorem claim_C8_witness :
    loadConfig (some cfgExample) = Except.ok cfgExample ∧
    ∃ party : Party, getCustodyStatus cfgExample (mkDate 2024 0 3) = Except.ok party :=
  ⟨claim_C8.1 cfgExample, claim_C8.2 cfgExample 5 0 3 4 (by decide) (by decide) (by decide)
    (by decide) (mkDate 2024 0 3)⟩

/-- Claim C9: the school session resolver follows the six-step priority
of the spec (outside the term span, weekend, covering `no_school` event,
covering `early_release` event, weekly early-out weekday, regular day),
and milestone events never affect the result — removing every milestone
event leaves the schedule of every date unchanged. -/
theorem claim_C9 :
    (∀ (cal : SchoolCalendarConfig) (d : Int), cal.terms ≠ [] →
      getSchoolSchedule cal d = schoolSessionSpec cal d) ∧
    (∀ (cal : SchoolCalendarConfig) (d : Int),
      getSchoolSchedule
        { cal with events :=
            cal.events.filter (fun e => decide (e.type ≠ SchoolEventType.milestone)) } d
        = getSchoolSchedule cal d) :=
  ⟨fun cal d _ => getSchoolSchedule_eq_spec cal d,
   fun cal d => getSchoolSchedule_filter_milestones cal d⟩

/-- Witness for claim C9 at the sample calendar on 2024-11-28, a date
covered by the ranged Thanksgiving `no_school` event. -/
theorem claim_C9_witness :
    getSchoolSchedule calExample (mkDate 2024 10 28) =
      schoolSessionSpec calExample (mkDate 2024 10 28) ∧
    (getSchoolSchedule calExample (mkDate 2024 10 28)).type = SchoolDayType.no_school :=
  ⟨claim_C9.1 calExample (mkDate 2024 10 28) (by decide), by decide⟩

/-- Claim C10: every year of Utah holiday dates carries a holiday named
Christmas 1st half on December 24 and Christmas 2nd half on December 26
but none on December 25, so for every configuration the custody status
of December 25 is decided by the non-holiday rules (weekend range,
weekday overnight, or default) — the holiday assignment list of that
date is empty. -/
theorem claim_C10 :
    (∀ year : Int,
      ("Christmas 1st half", mkDate year 11 24) ∈ getUtahHolidayDates year ∧
      ("Christmas 2nd half", mkDate year 11 26) ∈ getUtahHolidayDates year ∧
      ∀ p ∈ getUtahHolidayDates year, p.2 ≠ mkDate year 11 25) ∧
    (∀ (cfg : ScheduleConfig) (year : Int),
      getHolidayAssignmentsForDate cfg (mkDate year 11 25) = [] ∧
      getCustodyStatus cfg (mkDate year 11 25) =
        getCustodyStatusNonHoliday cfg (mkDate year 11 25)) := by
  constructor
  · intro y
    refine ⟨by simp [getUtahHolidayDates], by simp [getUtahHolidayDates], ?_⟩
    intro p hp
    exact utahHoliday_ne_dec25 y y p hp
  · intro cfg y
    have hempty := holidayAssignments_dec25_empty cfg y
    refine ⟨hempty, ?_⟩
    unfold getCustodyStatus
    rw [hempty]

/-- Witness for claim C10: the empty December 25 holiday list and the
Christmas half memberships for 2024. -/
theorem claim_C10_witness :
    getHolidayAssignmentsForDate cfgExample (mkDate 2024 11 25) = [] ∧
    ("Christmas 1st half", mkDate 2024 11 24) ∈ getUtahHolidayDates 2024 :=
  ⟨(claim_C10.2 cfgExample 2024).1, (claim_C10.1 2024).1⟩

theorem weekdayOf_mkDate (y : Int) (m : Nat) (x : Int) :
    (weekdayOf (mkDate y m x) : Int) = (mkDate y m 0 + x + 4) % 7 := by
  rw [mkDate_affine y m x]
  unfold weekdayOf
  omega

/-- Claim C4: the nth-weekday computation takes the first day of the
month carrying the requested weekday (computed from the actual weekday
of the 1st) and adds `(n-1)*7` days, and the last-weekday computation
steps back 0 to 6 days from the last day of the month to the nearest
matching weekday; for 2024, the 3rd Monday of January is January 15 and
the last Monday of May is May 27. -/
theorem claim_C4 (year : Int) (month weekday n : Nat) (hw : weekday < 7) (hn : 1 ≤ n) :
    (∃ first : Nat, 1 ≤ first ∧ first ≤ 7 ∧
      weekdayOf (mkDate year month (first : Int)) = weekday ∧
      (∀ d2 : Nat, 1 ≤ d2 → d2 < first →
        weekdayOf (mkDate year month (d2 : Int)) ≠ weekday) ∧
      nthWeekday year month weekday n =
        mkDate year month ((first : Int) + ((n : Int) - 1) * 7)) ∧
    (weekdayOf (lastWeekday year month weekday) = weekday ∧
      mkDate year month ((daysInMonth year month : Int) - 6) ≤ lastWeekday year month weekday ∧
      lastWeekday year month weekday ≤ mkDate year month (daysInMonth year month : Int) ∧
      (∀ z : Int, lastWeekday year month weekday < z →
        z ≤ mkDate year month (daysInMonth year month : Int) → weekdayOf z ≠ weekday)) ∧
    nthWeekday 2024 0 1 3 = mkDate 2024 0 15 ∧
    lastWeekday 2024 4 1 = mkDate 2024 4 27 := by
  have hdow1 := weekdayOf_mkDate year month 1
  refine ⟨⟨1 + (weekday + 7 - weekdayOf (mkDate year month 1)) % 7, by omega, by omega,
      ?_, ?_, ?_⟩, ⟨?_, ?_, ?_, ?_⟩, by decide, by decide⟩
  · have h := weekdayOf_mkDate year month
      ((1 + (weekday + 7 - weekdayOf (mkDate year month 1)) % 7 : Nat) : Int)
    omega
  · intro d2 h1 h2
    have h := weekdayOf_mkDate year month (d2 : Int)
    omega
  · have hdef : nthWeekday year month weekday n = mkDate year month
        ((1 + (weekday + 7 - weekdayOf (mkDate year month 1)) % 7 + (n - 1) * 7 : Nat) : Int) :=
      rfl
    rw [hdef]
    have harg : ((1 + (weekday + 7 - weekdayOf (mkDate year month 1)) % 7 + (n - 1) * 7 : Nat) :
        Int) = ((1 + (weekday + 7 - weekdayOf (mkDate year month 1)) % 7 : Nat) : Int)
        + ((n : Int) - 1) * 7 := by omega
    rw [harg]
  · have hdef : lastWeekday year month weekday = mkDate year month
        ((daysInMonth year month : Int) -
          ((weekdayOf (mkDate year month (daysInMonth year month : Int)) + 7 - weekday) % 7 :
            Nat)) := rfl
    rw [hdef]
    have hlast := weekdayOf_mkDate year month (daysInMonth year month : Int)
    have h := weekdayOf_mkDate year month
      ((daysInMonth year month : Int) -
        ((weekdayOf (mkDate year month (daysInMonth year month : Int)) + 7 - weekday) % 7 : Nat))
    omega
  · have hdef : lastWeekday year month weekday = mkDate year month
        ((daysInMonth year month : Int) -
          ((weekdayOf (mkDate year month (daysInMonth year month : Int)) + 7 - weekday) % 7 :
            Nat)) := rfl
    rw [hdef]
    have hA := mkDate_affine year month ((daysInMonth year month : Int) - 6)
    have hB := mkDate_affine year month
      ((daysInMonth year month : Int) -
        ((weekdayOf (mkDate year month (daysInMonth year month : Int)) + 7 - weekday) % 7 : Nat))
    omega
  · have hdef : lastWeekday year month weekday = mkDate year month
        ((daysInMonth year month : Int) -
          ((weekdayOf (mkDate year month (daysInMonth year month : Int)) + 7 - weekday) % 7 :
            Nat)) := rfl
    rw [hdef]
    have hA := mkDate_affine year month (daysInMonth year month : Int)
    have hB := mkDate_affine year month
      ((daysInMonth year month : Int) -
        ((weekdayOf (mkDate year month (daysInMonth year month : Int)) + 7 - weekday) % 7 : Nat))
    omega
  · intro z hz1 hz2
    have hdef : lastWeekday year month weekday = mkDate year month
        ((daysInMonth year month : Int) -
          ((weekdayOf (mkDate year month (daysInMonth year month : Int)) + 7 - weekday) % 7 :
            Nat)) := rfl
    rw [hdef] at hz1
    have hlast := weekdayOf_mkDate year month (daysInMonth year month : Int)
    have hR := weekdayOf_mkDate year month
      ((daysInMonth year month : Int) -
        ((weekdayOf (mkDate year month (daysInMonth year month : Int)) + 7 - weekday) % 7 : Nat))
    have hz : (weekdayOf z : Int) = (z + 4) % 7 := by
      unfold weekdayOf
      omega
    have hA := mkDate_affine year month (daysInMonth year month : Int)
    have hB := mkDate_affine year month
      ((daysInMonth year month : Int) -
        ((weekdayOf (mkDate year month (daysInMonth year month : Int)) + 7 - weekday) % 7 : Nat))
    omega

/-- Witness for claim C4: the concrete 2024 instances (3rd Monday of
January and last Monday of May). -/
theorem claim_C4_witness :
    nthWeekday 2024 0 1 3 = mkDate 2024 0 15 ∧ lastWeekday 2024 4 1 = mkDate 2024 4 27 :=
  (claim_C4 2024 0 1 3 (by decide) (by decide)).2.2

/-- Claim C6: `getNextTransition` scans forward day by day from `d+1` up
to 14 days and returns the first day whose custody status differs from
the status of `d`, describing the party gaining the children; when no
such day exists in the window it falls back to the next occurrence of
the alternating-weekend pickup weekday with a generic next-weekend
label.  The returned date is always strictly after `d`, and outside the
fallback the status of the returned date differs from the status of `d`.
The hypothesis `hS` expresses a valid configuration: every custody query
succeeds, with `S` its value. -/
theorem claim_C6 (coparentName : String) (cfg : ScheduleConfig) (S : Int → Party)
    (hS : ∀ z : Int, getCustodyStatus cfg z = Except.ok (S z))
    (pw : Nat) (hpw : dayIndex cfg.alternatingWeekends.pickupDay = Except.ok pw)
    (d : Int) :
    ∃ t : CustodyTransition,
      getNextTransition coparentName cfg d = Except.ok t ∧
      d < t.date ∧
      ((∃ i : Nat, 1 ≤ i ∧ i ≤ 14 ∧ S (d + i) ≠ S d) →
        S t.date ≠ S d ∧
        ∃ i : Nat, 1 ≤ i ∧ i ≤ 14 ∧ t.date = d + i ∧
          (∀ k : Nat, 1 ≤ k → k < i → S (d + k) = S d) ∧
          t.description =
            (if S t.date = Party.user then
              "Children come to you (" ++ formatDate t.date ++ ")"
            else "Children go to " ++ coparentName ++ " (" ++ formatDate t.date ++ ")")) ∧
      ((∀ i : Nat, 1 ≤ i → i ≤ 14 → S (d + i) = S d) →
        t.date = d + nextPickupOffset pw d ∧
        t.description = "Next weekend: " ++ formatDate t.date) := by
  by_cases hex : ∃ i : Nat, 1 ≤ i ∧ i ≤ 14 ∧ S (d + i) ≠ S d
  · have hP : ∃ i : Nat, 1 ≤ i ∧ i ≤ 14 ∧ S (d + i) ≠ S d := hex
    classical
    let i0 := Nat.find hP
    obtain ⟨h1, h2, h3⟩ := Nat.find_spec hP
    have hmin : ∀ k : Nat, 1 ≤ k → k < i0 → S (d + k) = S d := by
      intro k hk1 hk2
      by_contra hne
      exact (Nat.find_min hP hk2) ⟨hk1, by omega, hne⟩
    have hfound := findTransitionAux_found cfg d (S d) S hS 14 1 i0 h1 (by omega) h3
      (fun k hk1 hk2 => hmin k hk1 hk2)
    have heq : getNextTransition coparentName cfg d = Except.ok
        ⟨d + (i0 : Int),
          if S (d + (i0 : Int)) = Party.user then
            "Children come to you (" ++ formatDate (d + (i0 : Int)) ++ ")"
          else
            "Children go to " ++ coparentName ++ " (" ++ formatDate (d + (i0 : Int)) ++ ")"⟩ := by
      unfold getNextTransition
      rw [hS d]
      simp only [Except.bind, bind]
      rw [hfound]
      rfl
    refine ⟨_, heq, by simp only; omega, fun _ => ⟨by simp only; exact h3, i0, h1, h2, rfl,
      hmin, rfl⟩, fun hall => absurd (hall i0 h1 h2) h3⟩
  · have hall : ∀ i : Nat, 1 ≤ i → i ≤ 14 → S (d + i) = S d := by
      intro i hi1 hi2
      by_contra hne
      exact hex ⟨i, hi1, hi2, hne⟩
    have hnone := findTransitionAux_none cfg d (S d) S hS 14 1
      (fun j hj1 hj2 => hall j hj1 (by omega))
    have heq : getNextTransition coparentName cfg d = Except.ok
        ⟨d + nextPickupOffset pw d, "Next weekend: " ++ formatDate (d + nextPickupOffset pw d)⟩ := by
      unfold getNextTransition
      rw [hS d]
      simp only [Except.bind, bind]
      rw [hnone]
      simp only [Except.bind, bind]
      rw [hpw]
      rfl
    have hb := nextPickupOffset_bounds pw d
    refine ⟨_, heq, by simp only; omega, fun hex2 => absurd hex2 hex, fun _ => ⟨rfl, rfl⟩⟩

/-- Witness for claim C6 at the sample configuration on 2024-01-15. -/
theorem claim_C6_witness :
    ∃ t : CustodyTransition,
      getNextTransition "co-parent" cfgExample (mkDate 2024 0 15) = Except.ok t ∧
      mkDate 2024 0 15 < t.date := by
  obtain ⟨t, h1, h2, -, -⟩ := claim_C6 "co-parent" cfgExample
    (custodySpecStatus cfgExample 5 0 3 4)
    (getCustodyStatus_eq_spec cfgExample 5 0 3 4 (by decide) (by decide) (by decide) (by decide))
    5 (by decide) (mkDate 2024 0 15)
  exact ⟨t, h1, h2⟩

/-- Amended claim C7: `getWeekSummary` produces exactly 7 entries, one
per day starting at `d`, each naming the assigned party; an entry is
annotated `" (pickup)"` when its party differs from the previous day,
otherwise `" (drop-off)"` when it differs from the next day — the two
annotations are mutually exclusive, and a single-day custody window
sandwiched between the other party on both sides is annotated
`" (pickup)"` only.  The hypothesis `hS` expresses a valid
configuration: every custody query succeeds, with `S` its value. -/
theorem claim_C7 (userName coparentName : String) (cfg : ScheduleConfig) (S : Int → Party)
    (hS : ∀ z : Int, getCustodyStatus cfg z = Except.ok (S z)) (d : Int) :
    getWeekSummaryLines userName coparentName cfg d =
      Except.ok ((List.range 7).map (weekLineSpec userName coparentName S d)) ∧
    getWeekSummary userName coparentName cfg d =
      Except.ok (String.intercalate "\n"
        ((List.range 7).map (weekLineSpec userName coparentName S d))) ∧
    ((List.range 7).map (weekLineSpec userName coparentName S d)).length = 7 ∧
    (∀ i : Nat, S (d + i) ≠ S (d + (i : Int) - 1) → S (d + i) ≠ S (d + (i : Int) + 1) →
      weekNoteSpec S d i = " (pickup)") ∧
    (∀ i : Nat, weekNoteSpec S d i = " (pickup)" ∨ weekNoteSpec S d i = " (drop-off)" ∨
      weekNoteSpec S d i = "") := by
  have hline : ∀ i ∈ List.range 7, weekSummaryLine userName coparentName cfg d i =
      Except.ok (weekLineSpec userName coparentName S d i) := by
    intro i _
    unfold weekSummaryLine weekLineSpec weekNoteSpec
    simp only [hS, Except.bind, bind]
    rfl
  have h1 := mapM_ok_of_forall (weekSummaryLine userName coparentName cfg d)
    (weekLineSpec userName coparentName S d) (List.range 7) hline
  refine ⟨h1, ?_, by simp, ?_, ?_⟩
  · have h1' : getWeekSummaryLines userName coparentName cfg d =
        Except.ok ((List.range 7).map (weekLineSpec userName coparentName S d)) := h1
    unfold getWeekSummary
    rw [h1']
    rfl
  · intro i hprev hnext
    unfold weekNoteSpec
    rw [if_pos hprev]
  · intro i
    unfold weekNoteSpec
    split_ifs <;> simp

/-- Witness for amended claim C7 at the sandwich configuration for the
week of Monday 2024-01-29. -/
theorem claim_C7_witness :
    getWeekSummaryLines "You" "Co-parent" cfgSandwich (mkDate 2024 0 29) =
      Except.ok ((List.range 7).map
        (weekLineSpec "You" "Co-parent" (custodySpecStatus cfgSandwich 5 0 3 3)
          (mkDate 2024 0 29))) :=
  (claim_C7 "You" "Co-parent" cfgSandwich (custodySpecStatus cfgSandwich 5 0 3 3)
    (getCustodyStatus_eq_spec cfgSandwich 5 0 3 3 (by decide) (by decide) (by decide) (by decide))
    (mkDate 2024 0 29)).1

/-- Counterexample to claim C7 as stated: in the sandwich configuration
the single Wednesday custody window of 2024-01-31 lies between coparent
days on both sides, yet its week summary entry reads `"Wed: You
(pickup)"` — the pickup and drop-off annotations never appear together,
because the source computes the drop-off annotation only in the
else-branch of the pickup test. -/
theorem claim_C7_counterexample :
    getWeekSummaryLines "You" "Co-parent" cfgSandwich (mkDate 2024 0 29) =
      Except.ok ["Mon: Co-parent", "Tue: Co-parent (drop-off)", "Wed: You (pickup)",
        "Thu: Co-parent (pickup)", "Fri: You (pickup)", "Sat: You", "Sun: You (drop-off)"] ∧
    getCustodyStatus cfgSandwich (mkDate 2024 0 30) = Except.ok Party.coparent ∧
    getCustodyStatus cfgSandwich (mkDate 2024 0 31) = Except.ok Party.user ∧
    getCustodyStatus cfgSandwich (mkDate 2024 1 1) = Except.ok Party.coparent :=
  ⟨by decide, by decide, by decide, by decide⟩
